import Mathlib

/-!
# Verification of the Parot-AI real-time transcription core

A shallow embedding of the client-side real-time transcription relay of the
Parot-AI repository (src/src/App.tsx and the integrated variant in
src/unnamed/part_004), together with the audio-worklet framing code and the
collaborative broadcast reconciliation described by the specification.

The embedding models:
* the tier-event message handler (`wsOnMessage`, from `ws.onmessage`);
* the session stop / fallback-timeout / close logic (`stopListening`,
  `closeWebSocket`, `wsOnClose`, `wsOnError` and the timer events);
* the inline `AudioProcessor` worklet (PCM16 conversion, frame emission and
  the `isSpeaking` flag), with float samples modelled as rationals;
* the spec's TierReconciler / CollaborationRelay convergence rules.

React state setters are modelled as functional record updates on a single
`AppState`.  Handlers read the mutable refs (`wsRef`,
`cumulativeMediumRef`, `recordedAudioChunksRef`, …) at their current
values, but any React state consts a handler closes over are captured at
handler-installation time: `ws.onclose`/`ws.onerror` take the captured
`isListening`/`isProcessingLarge` values as explicit parameters (for the
session's handlers, installed by `startListening`, both are `false`).
UI-only fields (recording duration display, success toasts) are omitted.
-/

/-- `MeetingState` enum from the repository (types file, `export enum
MeetingState`). -/
inductive MeetingState where
  | IDLE
  | RECORDING
  | PROCESSING
  | ANALYSIS_READY
  | ERROR
deriving DecidableEq, Repr

/-- A parsed WebSocket JSON message as consumed by `ws.onmessage`:
`{"type": ..., "text"?: ..., "message"?: ...}`.  The handler only reads
`data.text` on the three tier branches and `data.message` on the error
branch, so `text` is kept as a plain string and `message` as an optional
one. -/
structure WsData where
  type : String
  text : String
  message : Option String
deriving DecidableEq, Repr

/-- JavaScript `String.prototype.trim` whitespace: the ECMAScript WhiteSpace
set (TAB, LF, VT, FF, CR, SP, NBSP, the Zs code points, BOM) together with
the LineTerminator code points U+2028/U+2029. -/
def isJsWhitespace (c : Char) : Bool :=
  c.toNat ∈ [0x9, 0xA, 0xB, 0xC, 0xD, 0x20, 0xA0, 0x1680,
    0x2000, 0x2001, 0x2002, 0x2003, 0x2004, 0x2005, 0x2006, 0x2007,
    0x2008, 0x2009, 0x200A, 0x2028, 0x2029, 0x202F, 0x205F, 0x3000, 0xFEFF]

/-- JavaScript `String.prototype.trim`: strip leading and trailing
whitespace. -/
def jsTrim (s : String) : String :=
  String.mk (((s.toList.dropWhile isJsWhitespace).reverse.dropWhile
    isJsWhitespace).reverse)

/-- The client-side session state relevant to the real-time transcription
relay, one field per React state hook / ref of the component
(src/unnamed/part_004 lines 74–119).  Booleans model presence of the
corresponding ref (`wsRef`, `workletNodeRef`, `audioContextRef`,
`streamRef`, `mediaRecorderRef`); the `…Calls` counters instrument the
releasing side effects so that "released exactly once" is expressible. -/
structure AppState where
  /-- `deepgramText` state: the fast-tier interim text. -/
  deepgramText : String
  /-- `mediumTranscript` state: the displayed mid-tier cumulative text. -/
  mediumTranscript : String
  /-- `largeText` state: the final-tier polished transcript. -/
  largeText : String
  /-- `cumulativeMediumRef.current`. -/
  cumulativeMedium : String
  /-- `stats.tiny`. -/
  statsTiny : Nat
  /-- `stats.medium`. -/
  statsMedium : Nat
  /-- `stats.large`. -/
  statsLarge : Nat
  /-- `isListening` state. -/
  isListening : Bool
  /-- `isProcessingLarge` state. -/
  isProcessingLarge : Bool
  /-- `meetingState` state. -/
  meetingState : MeetingState
  /-- `realtimeError` state. -/
  realtimeError : String
  /-- `wsRef.current !== null`. -/
  wsPresent : Bool
  /-- `wsRef.current.readyState === WebSocket.OPEN`. -/
  wsOpen : Bool
  /-- a pending `__fallbackTimeout` timer is attached to the socket. -/
  fallbackTimeoutSet : Bool
  /-- the 500 ms delayed `closeWebSocket` scheduled by the `large_result`
  branch is pending. -/
  pendingClose500 : Bool
  /-- `workletNodeRef.current !== null`. -/
  workletPresent : Bool
  /-- `audioContextRef.current` is a non-closed audio context. -/
  audioContextPresent : Bool
  /-- `streamRef.current !== null`. -/
  streamPresent : Bool
  /-- `mediaRecorderRef.current` exists and its state is not "inactive". -/
  mediaRecorderActive : Bool
  /-- `recordedAudioChunksRef.current.length`. -/
  recordedChunks : Nat
  /-- number of `stop` control messages sent on the socket. -/
  stopMsgsSent : Nat
  /-- number of `ws.close()` calls performed. -/
  wsCloseCalls : Nat
  /-- number of times the media tracks were stopped (`track.stop()`). -/
  trackStopCalls : Nat
  /-- number of `audioContext.close()` calls performed. -/
  contextCloseCalls : Nat
  /-- number of `workletNode.disconnect()` calls performed. -/
  workletDisconnectCalls : Nat
deriving DecidableEq, Repr

/-- `closeWebSocket` (part_004 lines 216–223): if `wsRef.current` is set,
close it and null the ref; otherwise do nothing. -/
def closeWebSocket (s : AppState) : AppState :=
  if s.wsPresent then
    { s with wsCloseCalls := s.wsCloseCalls + 1, wsPresent := false,
             wsOpen := false }
  else s

/-- `stopListening` (part_004 lines 807–856): clear the listening flag, set
`isProcessingLarge`, stop the media recorder if active, send a `stop`
control message if the socket is open, create the 20000 ms fallback close
timer, attach it to the socket, then release the worklet node, the audio
context and the media stream, nulling each ref after release.  The
`setTimeout` runs unconditionally, so the fallback timer is pending in
every case; the attach `(wsRef.current as any).__fallbackTimeout = …`,
however, throws a TypeError when `wsRef.current` is null, which aborts the
rest of the async function — the worklet / audio-context / stream cleanup
then never runs.  (The duration-display interval is omitted as
UI-only.) -/
def stopListening (s : AppState) : AppState :=
  let s1 := { s with isListening := false, isProcessingLarge := true }
  let s2 := if s1.mediaRecorderActive then
      { s1 with mediaRecorderActive := false } else s1
  let s3 := if s2.wsPresent && s2.wsOpen then
      { s2 with stopMsgsSent := s2.stopMsgsSent + 1 } else s2
  let s4 := { s3 with fallbackTimeoutSet := true }
  if s4.wsPresent then
    let s5 := if s4.workletPresent then
        { s4 with workletPresent := false,
                  workletDisconnectCalls := s4.workletDisconnectCalls + 1 }
      else s4
    let s6 := if s5.audioContextPresent then
        { s5 with audioContextPresent := false,
                  contextCloseCalls := s5.contextCloseCalls + 1 }
      else s5
    if s6.streamPresent then
      { s6 with streamPresent := false,
                trackStopCalls := s6.trackStopCalls + 1 }
    else s6
  else s4

/-- The `ws.onmessage` handler (part_004 lines 691–779; the same branch
structure appears in src/src/App.tsx lines 1077–1158).  Dispatches on
`data.type`:
* `"deepgram_transcript"`: always replace `deepgramText`, bump `stats.tiny`;
* `"medium_delta"`: trim the delta; if non-blank, space-join it onto the
  cumulative medium transcript and bump `stats.medium` (`deepgramText` is
  deliberately not cleared — the source comments the clearing line out);
* `"large_result"`: replace `largeText`, clear the processing-large flag,
  bump `stats.large`, clear `mediumTranscript`/`deepgramText`/the cumulative
  ref, clear the fallback timeout if one is attached to the socket,
  schedule the 500 ms delayed close, and, when recorded audio chunks exist,
  move the meeting state to PROCESSING (the asynchronous analysis
  continuation is outside this model);
* `"error"`: set `realtimeError` to `data.message || "Transcription error"`;
* `"pong"` and anything else: no effect. -/
def wsOnMessage (s : AppState) (d : WsData) : AppState :=
  if d.type = "deepgram_transcript" then
    { s with deepgramText := d.text, statsTiny := s.statsTiny + 1 }
  else if d.type = "medium_delta" then
    let newDelta := jsTrim d.text
    if newDelta ≠ "" then
      let newCumulative :=
        if s.cumulativeMedium ≠ "" then
          s.cumulativeMedium ++ " " ++ newDelta
        else newDelta
      { s with cumulativeMedium := newCumulative,
               mediumTranscript := newCumulative,
               statsMedium := s.statsMedium + 1 }
    else s
  else if d.type = "large_result" then
    let s1 := { s with largeText := d.text, isProcessingLarge := false,
                       statsLarge := s.statsLarge + 1,
                       mediumTranscript := "", deepgramText := "",
                       cumulativeMedium := "" }
    let s2 := if s1.wsPresent && s1.fallbackTimeoutSet then
        { s1 with fallbackTimeoutSet := false } else s1
    let s3 := { s2 with pendingClose500 := true }
    if s3.recordedChunks > 0 then
      { s3 with meetingState := MeetingState.PROCESSING }
    else s3
  else if d.type = "error" then
    { s with realtimeError :=
        match d.message with
        | some m => if m = "" then "Transcription error" else m
        | none => "Transcription error" }
  else s

/-- The `ws.onclose` handler (part_004 lines 790–798): the socket is now
closed; if `isListening && !isProcessingLarge`, surface a realtime error
and stop listening.  The two guard values are the render-scope consts the
handler closed over when `startListening` installed it, NOT the current
state: `capturedIsListening`/`capturedIsProcessingLarge` are those
captured values.  `startListening` only runs from a render where
`isListening` is `false`, so for the installed handler the guard is
permanently false and the error branch is dead code. -/
def wsOnClose (capturedIsListening capturedIsProcessingLarge : Bool)
    (s : AppState) : AppState :=
  let s1 := { s with wsOpen := false }
  if capturedIsListening && !capturedIsProcessingLarge then
    stopListening { s1 with realtimeError := "Connection lost during recording." }
  else s1

/-- The `ws.onerror` handler (part_004 lines 782–788): if `isListening`,
surface a realtime error and stop listening.  As with `ws.onclose`, the
guard reads the `isListening` value captured when the handler was
installed (`false` for the session's handler), not the current state. -/
def wsOnError (capturedIsListening : Bool) (s : AppState) : AppState :=
  if capturedIsListening then
    stopListening { s with realtimeError := "Connection error. Please check backend." }
  else s

/-- Expiry of the 20000 ms fallback timer armed by `stopListening`
(part_004 lines 826–830): if it was not cleared in the meantime, force-close
the transcription socket. -/
def fallbackTimeoutFire (s : AppState) : AppState :=
  if s.fallbackTimeoutSet then
    closeWebSocket { s with fallbackTimeoutSet := false }
  else s

/-- Expiry of the 500 ms delayed close scheduled by the `large_result`
branch (part_004 lines 726–728). -/
def delayedCloseFire (s : AppState) : AppState :=
  if s.pendingClose500 then
    closeWebSocket { s with pendingClose500 := false }
  else s

/-- The events the single-threaded event loop can deliver to the session
while recording / finalizing. -/
inductive Event where
  /-- a JSON message arrives on the transcription socket. -/
  | msg (d : WsData)
  /-- the transcription socket closes and `ws.onclose` fires. -/
  | wsClosed
  /-- `ws.onerror` fires. -/
  | wsError
  /-- the user stops recording (`stopListening` invoked). -/
  | userStop
  /-- the 20000 ms fallback timer fires. -/
  | fallbackTimeout
  /-- the 500 ms post-final close timer fires. -/
  | delayedClose
deriving DecidableEq, Repr

/-- One step of the event loop.  The socket handlers run with the guard
values they captured at installation: `startListening` installed them in a
render where `isListening` and `isProcessingLarge` were both `false`. -/
def step (s : AppState) : Event → AppState
  | Event.msg d => wsOnMessage s d
  | Event.wsClosed => wsOnClose false false s
  | Event.wsError => wsOnError false s
  | Event.userStop => stopListening s
  | Event.fallbackTimeout => fallbackTimeoutFire s
  | Event.delayedClose => delayedCloseFire s

/-- Process a list of events in order. -/
def run (s : AppState) (evts : List Event) : AppState :=
  evts.foldl step s

/-- The displayed / exported committed transcript, from the
`largeText || mediumTranscript || deepgramText` precedence used by
`copyToClipboard` and `downloadTranscript` (part_004 lines 995–1015). -/
def displayedTranscript (s : AppState) : String :=
  if s.largeText ≠ "" then s.largeText
  else if s.mediumTranscript ≠ "" then s.mediumTranscript
  else s.deepgramText

/-- A `deepgram_transcript` (fast-tier) message carrying `t`. -/
def mkDeepgram (t : String) : WsData := ⟨"deepgram_transcript", t, none⟩

/-- A `medium_delta` (mid-tier) message carrying `t`. -/
def mkMedium (t : String) : WsData := ⟨"medium_delta", t, none⟩

/-- A `large_result` (final-tier) message carrying `t`. -/
def mkLarge (t : String) : WsData := ⟨"large_result", t, none⟩

/-!
## The inline `AudioProcessor` worklet

Embedded from the worklet source generated inline by `startListening`
(part_004 lines 600–654, identically src/src/App.tsx lines 986–1040).
Float32 samples are modelled as rationals; the preallocated ring buffer with
its write index is modelled as the list of samples written since the last
frame emission (the code emits exactly when the index reaches
`bufferSize = 1600`, at which point every slot has been written).
-/

/-- `bufferSize = 1600; // 100ms at 16kHz`. -/
def bufferSize : Nat := 1600

/-- `silenceThreshold = 0.01`. -/
def silenceThreshold : ℚ := 1 / 100

/-- PCM16 conversion of one sample (part_004 lines 632–633):
`const s = Math.max(-1, Math.min(1, this.buffer[j]));
 pcm16[j] = s < 0 ? s * 0x8000 : s * 0x7fff;`. -/
def pcm16Sample (x : ℚ) : ℚ :=
  let s := max (-1) (min 1 x)
  if s < 0 then s * 0x8000 else s * 0x7fff

/-- One emitted audio frame: the converted PCM data posted as `audioData`
and the `isSpeaking` flag. -/
structure Frame where
  pcm : List ℚ
  isSpeaking : Bool
deriving DecidableEq, Repr

/-- The maximum absolute amplitude of a list of samples, with the same
seed 0 the worklet uses for `maxAmplitude`. -/
def maxAbs (l : List ℚ) : ℚ :=
  l.foldr (fun x m => max |x| m) 0

/-- The sample loop of `AudioProcessor.process` (part_004 lines 624–647):
push each input sample into the buffer and fold it into `maxAmplitude`;
when the buffer index reaches `bufferSize`, emit a frame (PCM-converted
buffer plus `isSpeaking = maxAmplitude > silenceThreshold`) and reset both
the buffer index and `maxAmplitude`. -/
def procGo (buf : List ℚ) (amp : ℚ) : List ℚ → List ℚ × List Frame
  | [] => (buf, [])
  | x :: rest =>
    let buf' := buf ++ [x]
    let amp' := max amp |x|
    if bufferSize ≤ buf'.length then
      let r := procGo [] 0 rest
      (r.1, ⟨buf'.map pcm16Sample, decide (silenceThreshold < amp')⟩ :: r.2)
    else
      procGo buf' amp' rest

/-- One invocation of `AudioProcessor.process` on input channel data:
`maxAmplitude` starts at 0 (`let maxAmplitude = 0;`), the buffer carries
over from the previous invocation.  Returns the carried-over buffer and the
frames emitted during this invocation. -/
def processCall (buf : List ℚ) (input : List ℚ) : List ℚ × List Frame :=
  procGo buf 0 input

/-- A whole capture: successive `process` invocations with the buffer
threaded through, collecting all emitted frames in order. -/
def processAll (buf : List ℚ) : List (List ℚ) → List ℚ × List Frame
  | [] => (buf, [])
  | c :: cs =>
    let r := processCall buf c
    let r2 := processAll r.1 cs
    (r2.1, r.2 ++ r2.2)

/-- Total number of input samples over a capture. -/
def totalSamples (calls : List (List ℚ)) : Nat :=
  (calls.map List.length).sum

/-- The frame duration in seconds: 1600 samples at 16 kHz. -/
def frameDurationSeconds : ℚ := (bufferSize : ℚ) / 16000

/-!
## Collaborative-mode tier reconciliation and broadcast fan-out

The repository's collaboration layer under src/ contains only transport and
polling glue (`pollRealtimeUpdates`, `connectStreamingTranscription`,
`getRealtimeUpdates` in src/unnamed/part_002); the host-side broadcast
fan-out and the participant-side reconciler that the specification calls
CollaborationRelay / TierReconciler are not present under src/.  They are
modelled here from the specification's words (§4.3, §4.5). -/

/-- Modelled from the spec: the three transcription tiers (§3, Glossary). -/
inductive Tier where
  | fast
  | mid
  | final
deriving DecidableEq, Repr

/-- Modelled from the spec: a `TierEvent`
`{ tier, text, isFinalForTier, source }` (§3). -/
structure TierEvent where
  tier : Tier
  text : String
  isFinalForTier : Bool
  source : String
deriving DecidableEq, Repr

/-- Modelled from the spec: the authoritative display state
`TranscriptState = { committedText, interimText, activeTier }` (§3). -/
structure TranscriptState where
  committedText : String
  interimText : String
  activeTier : Option Tier
deriving DecidableEq, Repr

/-- Space-join `b` onto `a` when `a` is non-empty (§4.3 rule 2: "append to
committedText (space-joined if non-empty)"). -/
def spaceJoin (a b : String) : String :=
  if a = "" then b else a ++ " " ++ b

/-- Modelled from the spec: the TierReconciler reconciliation rules
(§4.3), which the participant-side code that is missing from src/ is
specified to share with the host:
1. fast, not final: replace `interimText` only;
2. fast, final: space-append to `committedText`, clear `interimText`;
3. mid: space-append to `committedText`, clear `interimText`;
4. final: fully replace `committedText`, clear `interimText`. -/
def reconcile (st : TranscriptState) (e : TierEvent) : TranscriptState :=
  match e.tier with
  | Tier.fast =>
    if e.isFinalForTier then
      ⟨spaceJoin st.committedText e.text, "", some Tier.fast⟩
    else
      { st with interimText := e.text, activeTier := some Tier.fast }
  | Tier.mid => ⟨spaceJoin st.committedText e.text, "", some Tier.mid⟩
  | Tier.final => ⟨e.text, "", some Tier.final⟩

/-- Modelled from the spec: the broadcast message the host publishes for
every accepted TierEvent: `{type: tier-broadcast, text, isFinalForTier,
tier}` (§4.5). -/
structure BroadcastMsg where
  type : String
  text : String
  isFinalForTier : Bool
  tier : String
deriving DecidableEq, Repr

/-- Wire tag for a tier. -/
def tierTag : Tier → String
  | Tier.fast => "fast"
  | Tier.mid => "mid"
  | Tier.final => "final"

/-- Modelled from the spec: host-side fan-out of one TierEvent into the
equivalent broadcast message (§4.5). -/
def encodeBroadcast (e : TierEvent) : BroadcastMsg :=
  ⟨"tier-broadcast", e.text, e.isFinalForTier, tierTag e.tier⟩

/-- Modelled from the spec: participant-side decoding of a broadcast
message back into a TierEvent; unknown `type` or tier tags are rejected
(§9: unknown variants are logged and ignored).  The participant records the
broadcast connection as the event source. -/
def decodeBroadcast (m : BroadcastMsg) : Option TierEvent :=
  if m.type = "tier-broadcast" then
    match m.tier with
    | "fast" => some ⟨Tier.fast, m.text, m.isFinalForTier, "broadcast"⟩
    | "mid" => some ⟨Tier.mid, m.text, m.isFinalForTier, "broadcast"⟩
    | "final" => some ⟨Tier.final, m.text, m.isFinalForTier, "broadcast"⟩
    | _ => none
  else none

/-- Modelled from the spec: a participant applies the exact same
reconciliation rules to each decoded broadcast message, ignoring
undecodable ones (§4.5, §9). -/
def participantStep (st : TranscriptState) (m : BroadcastMsg) : TranscriptState :=
  match decodeBroadcast m with
  | some e => reconcile st e
  | none => st

/-- The host state after locally reconciling a sequence of TierEvents. -/
def hostRun (st : TranscriptState) (evts : List TierEvent) : TranscriptState :=
  evts.foldl reconcile st

/-- The participant state after applying a sequence of broadcast
messages. -/
def participantRun (st : TranscriptState) (ms : List BroadcastMsg) :
    TranscriptState :=
  ms.foldl participantStep st

/-!
## Helper definitions and lemmas
-/

/-- Process a list of socket messages in arrival order. -/
def runMsgs (s : AppState) (ds : List WsData) : AppState :=
  ds.foldl wsOnMessage s

/-- A representative session state in the middle of a recording: listening,
socket open, microphone resources live, two recorded chunks, meeting state
still IDLE (the realtime flow never sets RECORDING). -/
def recordingState : AppState :=
  { deepgramText := "hi", mediumTranscript := "", largeText := "",
    cumulativeMedium := "", statsTiny := 1, statsMedium := 0, statsLarge := 0,
    isListening := true, isProcessingLarge := false,
    meetingState := MeetingState.IDLE, realtimeError := "",
    wsPresent := true, wsOpen := true, fallbackTimeoutSet := false,
    pendingClose500 := false, workletPresent := true,
    audioContextPresent := true, streamPresent := true,
    mediaRecorderActive := true, recordedChunks := 2, stopMsgsSent := 0,
    wsCloseCalls := 0, trackStopCalls := 0, contextCloseCalls := 0,
    workletDisconnectCalls := 0 }

lemma runMsgs_append (s : AppState) (ds es : List WsData) :
    runMsgs s (ds ++ es) = runMsgs (runMsgs s ds) es := by
  simp [runMsgs, List.foldl_append]

lemma wsOnMessage_large (s : AppState) (t : String) :
    (wsOnMessage s (mkLarge t)).largeText = t ∧
    (wsOnMessage s (mkLarge t)).deepgramText = "" ∧
    (wsOnMessage s (mkLarge t)).mediumTranscript = "" ∧
    (wsOnMessage s (mkLarge t)).cumulativeMedium = "" := by
  simp only [wsOnMessage, mkLarge, String.reduceEq, reduceIte]
  refine ⟨?_, ?_, ?_, ?_⟩ <;> (split <;> split <;> rfl)

lemma displayedTranscript_of_cleared (s : AppState)
    (hm : s.mediumTranscript = "") (hd : s.deepgramText = "") :
    displayedTranscript s = s.largeText := by
  by_cases h : s.largeText = "" <;> simp [displayedTranscript, h, hm, hd]

lemma wsOnMessage_deepgram (s : AppState) (t : String) :
    wsOnMessage s (mkDeepgram t) =
      { s with deepgramText := t, statsTiny := s.statsTiny + 1 } := rfl

lemma wsOnMessage_medium_char (s : AppState) (t : String) :
    wsOnMessage s (mkMedium t) =
      (if jsTrim t = "" then s
       else { s with
              cumulativeMedium :=
                if s.cumulativeMedium = "" then jsTrim t
                else s.cumulativeMedium ++ " " ++ jsTrim t,
              mediumTranscript :=
                if s.cumulativeMedium = "" then jsTrim t
                else s.cumulativeMedium ++ " " ++ jsTrim t,
              statsMedium := s.statsMedium + 1 }) := by
  simp only [wsOnMessage, mkMedium, String.reduceEq, reduceIte, ne_eq,
    ite_not]

/-!
## The claims
-/

/-- Claim C1: for every sequence of tier events ending in a final-tier
`large_result` event, the displayed committed transcript (the
`largeText || mediumTranscript || deepgramText` precedence) after
processing equals exactly the final event's text, regardless of the
preceding fast/mid events, and processing the final event clears the
interim fast text and the cumulative mid text. -/
theorem final_tier_replaces_displayed_transcript (s : AppState)
    (pre : List WsData) (t : String) :
    displayedTranscript (runMsgs s (pre ++ [mkLarge t])) = t ∧
    (runMsgs s (pre ++ [mkLarge t])).deepgramText = "" ∧
    (runMsgs s (pre ++ [mkLarge t])).cumulativeMedium = "" ∧
    (runMsgs s (pre ++ [mkLarge t])).mediumTranscript = "" := by
  rw [runMsgs_append]
  have hone : runMsgs (runMsgs s pre) [mkLarge t] =
      wsOnMessage (runMsgs s pre) (mkLarge t) := rfl
  rw [hone]
  obtain ⟨h1, h2, h3, h4⟩ := wsOnMessage_large (runMsgs s pre) t
  refine ⟨?_, h2, h4, h3⟩
  rw [displayedTranscript_of_cleared _ h3 h2]
  exact h1

/-- Claim C4: applying the same `large_result` event a second time yields
the same transcript state (all four transcript text fields, hence the
displayed transcript) as applying it once: the full-replace update is
idempotent on the transcript state. -/
theorem large_result_idempotent (s : AppState) (t : String) :
    (wsOnMessage (wsOnMessage s (mkLarge t)) (mkLarge t)).largeText =
      (wsOnMessage s (mkLarge t)).largeText ∧
    (wsOnMessage (wsOnMessage s (mkLarge t)) (mkLarge t)).mediumTranscript =
      (wsOnMessage s (mkLarge t)).mediumTranscript ∧
    (wsOnMessage (wsOnMessage s (mkLarge t)) (mkLarge t)).deepgramText =
      (wsOnMessage s (mkLarge t)).deepgramText ∧
    (wsOnMessage (wsOnMessage s (mkLarge t)) (mkLarge t)).cumulativeMedium =
      (wsOnMessage s (mkLarge t)).cumulativeMedium ∧
    displayedTranscript (wsOnMessage (wsOnMessage s (mkLarge t)) (mkLarge t)) =
      displayedTranscript (wsOnMessage s (mkLarge t)) := by
  obtain ⟨h1, h2, h3, h4⟩ := wsOnMessage_large s t
  obtain ⟨g1, g2, g3, g4⟩ := wsOnMessage_large (wsOnMessage s (mkLarge t)) t
  refine ⟨g1.trans h1.symm, g3.trans h3.symm, g2.trans h2.symm,
    g4.trans h4.symm, ?_⟩
  rw [displayedTranscript_of_cleared _ g3 g2,
    displayedTranscript_of_cleared _ h3 h2, g1, h1]

lemma runMsgs_deepgram_keeps_committed (ts : List String) :
    ∀ s : AppState,
      (runMsgs s (ts.map mkDeepgram)).mediumTranscript = s.mediumTranscript ∧
      (runMsgs s (ts.map mkDeepgram)).largeText = s.largeText ∧
      (runMsgs s (ts.map mkDeepgram)).cumulativeMedium = s.cumulativeMedium := by
  induction ts with
  | nil => exact fun s => ⟨rfl, rfl, rfl⟩
  | cons a ts ih =>
    intro s
    have : runMsgs s ((a :: ts).map mkDeepgram) =
        runMsgs (wsOnMessage s (mkDeepgram a)) (ts.map mkDeepgram) := rfl
    rw [this, wsOnMessage_deepgram]
    exact ih _

/-- Claim C7: for every non-empty sequence consisting only of fast-tier
`deepgram_transcript` events, after processing, the interim text equals the
text of the most recently processed event and the committed transcript
fields (mid cumulative, mid display, final) are unchanged. -/
theorem fast_events_update_interim_only (s : AppState) (ts : List String)
    (t : String) :
    (runMsgs s ((ts ++ [t]).map mkDeepgram)).deepgramText = t ∧
    (runMsgs s ((ts ++ [t]).map mkDeepgram)).mediumTranscript =
      s.mediumTranscript ∧
    (runMsgs s ((ts ++ [t]).map mkDeepgram)).largeText = s.largeText ∧
    (runMsgs s ((ts ++ [t]).map mkDeepgram)).cumulativeMedium =
      s.cumulativeMedium := by
  have hsplit : (ts ++ [t]).map mkDeepgram =
      ts.map mkDeepgram ++ [mkDeepgram t] := by simp
  rw [hsplit, runMsgs_append]
  have hone : runMsgs (runMsgs s (ts.map mkDeepgram)) [mkDeepgram t] =
      wsOnMessage (runMsgs s (ts.map mkDeepgram)) (mkDeepgram t) := rfl
  rw [hone, wsOnMessage_deepgram]
  obtain ⟨h1, h2, h3⟩ := runMsgs_deepgram_keeps_committed ts s
  exact ⟨rfl, h1, h2, h3⟩

/-- Counterexample to claim C3 as stated: a `medium_delta` event with text
"hello" arriving while the interim fast text is "hi" does append to the
cumulative mid transcript, but the interim fast text is NOT cleared (the
source deliberately comments the clearing line out). -/
theorem medium_delta_keeps_interim_cex :
    (wsOnMessage recordingState (mkMedium "hello")).cumulativeMedium =
      "hello" ∧
    ¬ (wsOnMessage recordingState (mkMedium "hello")).deepgramText = "" := by
  constructor
  · rfl
  · decide

/-- Claim C3, amended: every mid-tier `medium_delta` event whose trimmed
text is non-blank has that trimmed text appended (space-joined) to the
cumulative mid transcript, blank deltas are ignored, and in both cases the
interim fast-tier text is left unchanged (not cleared). -/
theorem medium_delta_appends_interim_unchanged (s : AppState) (t : String) :
    (wsOnMessage s (mkMedium t)).deepgramText = s.deepgramText ∧
    (wsOnMessage s (mkMedium t)).cumulativeMedium =
      (if jsTrim t = "" then s.cumulativeMedium
       else if s.cumulativeMedium = "" then jsTrim t
       else s.cumulativeMedium ++ " " ++ jsTrim t) ∧
    (wsOnMessage s (mkMedium t)).mediumTranscript =
      (if jsTrim t = "" then s.mediumTranscript
       else if s.cumulativeMedium = "" then jsTrim t
       else s.cumulativeMedium ++ " " ++ jsTrim t) := by
  rw [wsOnMessage_medium_char]
  by_cases h : jsTrim t = "" <;> simp [h]

lemma jsTrim_of_all_whitespace (t : String)
    (h : ∀ c ∈ t.toList, isJsWhitespace c) : jsTrim t = "" := by
  have hd : t.toList.dropWhile isJsWhitespace = [] :=
    List.dropWhile_eq_nil_iff.mpr h
  unfold jsTrim
  rw [hd]
  decide

/-- Claim C10: a `medium_delta` event whose text is empty or
whitespace-only is ignored entirely — the whole state (in particular the
cumulative mid transcript, the displayed mid text and the medium event
counter) is left unchanged, so only non-blank deltas are ever appended. -/
theorem blank_medium_delta_ignored (s : AppState) (t : String)
    (h : ∀ c ∈ t.toList, isJsWhitespace c) :
    wsOnMessage s (mkMedium t) = s := by
  rw [wsOnMessage_medium_char, if_pos (jsTrim_of_all_whitespace t h)]

/-- Witness for C10 at the concrete whitespace-only delta `" "`. -/
theorem blank_medium_delta_ignored_witness :
    wsOnMessage recordingState (mkMedium " ") = recordingState :=
  blank_medium_delta_ignored recordingState " " (by decide)

lemma wsOnMessage_ws_fields (s : AppState) (d : WsData) :
    (wsOnMessage s d).wsCloseCalls = s.wsCloseCalls ∧
    (wsOnMessage s d).wsPresent = s.wsPresent := by
  simp only [wsOnMessage]
  split_ifs <;> exact ⟨rfl, rfl⟩

lemma wsOnMessage_no_large_fields (s : AppState) (d : WsData)
    (h : d.type ≠ "large_result") :
    (wsOnMessage s d).fallbackTimeoutSet = s.fallbackTimeoutSet ∧
    (wsOnMessage s d).meetingState = s.meetingState := by
  simp only [wsOnMessage]
  split_ifs <;> exact ⟨rfl, rfl⟩

lemma runMsgs_no_large_fields (ds : List WsData)
    (h : ∀ d ∈ ds, d.type ≠ "large_result") :
    ∀ s : AppState,
      (runMsgs s ds).wsCloseCalls = s.wsCloseCalls ∧
      (runMsgs s ds).wsPresent = s.wsPresent ∧
      (runMsgs s ds).fallbackTimeoutSet = s.fallbackTimeoutSet ∧
      (runMsgs s ds).meetingState = s.meetingState := by
  induction ds with
  | nil => exact fun s => ⟨rfl, rfl, rfl, rfl⟩
  | cons d ds ih =>
    intro s
    have hstep : runMsgs s (d :: ds) = runMsgs (wsOnMessage s d) ds := rfl
    have hd := h d (List.mem_cons_self d ds)
    have hds := ih (fun e he => h e (List.mem_cons_of_mem d he))
    obtain ⟨w1, w2⟩ := wsOnMessage_ws_fields s d
    obtain ⟨w3, w4⟩ := wsOnMessage_no_large_fields s d hd
    obtain ⟨i1, i2, i3, i4⟩ := hds (wsOnMessage s d)
    rw [hstep]
    exact ⟨i1.trans w1, i2.trans w2, i3.trans w3, i4.trans w4⟩

lemma stopListening_basic_fields (s : AppState) :
    (stopListening s).wsCloseCalls = s.wsCloseCalls ∧
    (stopListening s).wsPresent = s.wsPresent ∧
    (stopListening s).fallbackTimeoutSet = true ∧
    (stopListening s).meetingState = s.meetingState ∧
    (stopListening s).isListening = false ∧
    (stopListening s).isProcessingLarge = true := by
  obtain ⟨d1, d2, d3, d4, n1, n2, n3, b1, b2, ms, re, wp, wo, ft, pc, wk, ac,
    sp, mr, rc, sm, c1, c2, c3, c4⟩ := s
  cases mr <;> cases wp <;> cases wo <;> cases wk <;> cases ac <;> cases sp <;>
    exact ⟨rfl, rfl, rfl, rfl, rfl, rfl⟩

lemma run_msg_map (s : AppState) (ds : List WsData) :
    run s (ds.map Event.msg) = runMsgs s ds := by
  simp [run, runMsgs, List.foldl_map, step]

/-- Counterexample to claim C2 as stated: starting from a representative
recording state (meeting state IDLE, as the realtime flow keeps it), a user
stop followed by expiry of the 20000 ms fallback timeout force-closes the
socket once, but the session does NOT transition to PROCESSING — the
fallback timer only calls `closeWebSocket`. -/
theorem fallback_timeout_no_processing_cex :
    (run recordingState [Event.userStop, Event.fallbackTimeout]).wsCloseCalls
      = 1 ∧
    ¬ (run recordingState
        [Event.userStop, Event.fallbackTimeout]).meetingState
      = MeetingState.PROCESSING := by
  refine ⟨rfl, ?_⟩
  decide

/-- Claim C2, amended: when recording stops and no final-tier
`large_result` event arrives before the 20000 ms fallback timeout fires,
the transcription connection is force-closed exactly once by the fallback
timer, but the session does not transition to PROCESSING: the meeting state
is exactly what it was before the stop (only `closeWebSocket` runs at the
timeout). -/
theorem fallback_timeout_closes_once (s : AppState) (msgs : List WsData)
    (hws : s.wsPresent = true)
    (hnl : ∀ d ∈ msgs, d.type ≠ "large_result") :
    (run s (Event.userStop :: msgs.map Event.msg ++
        [Event.fallbackTimeout])).wsCloseCalls = s.wsCloseCalls + 1 ∧
    (run s (Event.userStop :: msgs.map Event.msg ++
        [Event.fallbackTimeout])).meetingState = s.meetingState ∧
    (run s (Event.userStop :: msgs.map Event.msg ++
        [Event.fallbackTimeout])).wsPresent = false := by
  have h1 : run s (Event.userStop :: msgs.map Event.msg ++
      [Event.fallbackTimeout]) =
      run (stopListening s) (msgs.map Event.msg ++ [Event.fallbackTimeout]) :=
    rfl
  have h2 : run (stopListening s) (msgs.map Event.msg ++
      [Event.fallbackTimeout]) =
      run (run (stopListening s) (msgs.map Event.msg))
        [Event.fallbackTimeout] := by
    simp [run, List.foldl_append]
  rw [h1, h2, run_msg_map]
  obtain ⟨p1, p2, p3, p4, _, _⟩ := stopListening_basic_fields s
  obtain ⟨q1, q2, q3, q4⟩ := runMsgs_no_large_fields msgs hnl (stopListening s)
  set m := runMsgs (stopListening s) msgs with hm
  have hts : m.fallbackTimeoutSet = true := q3.trans p3
  have hwp : m.wsPresent = true := (q2.trans p2).trans hws
  have hrun : run m [Event.fallbackTimeout] = fallbackTimeoutFire m := rfl
  rw [hrun]
  unfold fallbackTimeoutFire
  rw [if_pos hts]
  unfold closeWebSocket
  rw [if_pos (show ({ m with fallbackTimeoutSet := false } : AppState).wsPresent = true from hwp)]
  refine ⟨?_, ?_, rfl⟩
  · show m.wsCloseCalls + 1 = s.wsCloseCalls + 1
    rw [q1.trans p1]
  · show m.meetingState = s.meetingState
    rw [q4.trans p4]

/-- Witness for the amended C2 at a concrete recording state with one
intervening fast-tier message and no final event. -/
theorem fallback_timeout_closes_once_witness :
    (run recordingState (Event.userStop ::
        [mkDeepgram "yo"].map Event.msg ++
        [Event.fallbackTimeout])).wsCloseCalls =
      recordingState.wsCloseCalls + 1 ∧
    (run recordingState (Event.userStop ::
        [mkDeepgram "yo"].map Event.msg ++
        [Event.fallbackTimeout])).meetingState =
      recordingState.meetingState ∧
    (run recordingState (Event.userStop ::
        [mkDeepgram "yo"].map Event.msg ++
        [Event.fallbackTimeout])).wsPresent = false :=
  fallback_timeout_closes_once recordingState [mkDeepgram "yo"] rfl
    (by decide)

/-- Claim C6 is right of the spec's intent but the code is a slip: the
inline comment at part_004 line 793 says closed-while-recording means
error, yet the onclose/onerror guards evaluate the captured render-time
`isListening`/`isProcessingLarge` (both `false` when `startListening`
installed the handlers), so on an unexpected close during recording the
program does nothing beyond the socket becoming closed: no error message
is surfaced, recording is not stopped, the meeting state does not become
ERROR, and no microphone resource is ever released — evaluated here at a
concrete mid-recording state. -/
theorem ws_close_while_recording_dead_guard :
    wsOnClose false false recordingState =
      { recordingState with wsOpen := false } ∧
    wsOnError false recordingState = recordingState ∧
    (wsOnClose false false recordingState).realtimeError = "" ∧
    (wsOnClose false false recordingState).isListening = true ∧
    (wsOnClose false false recordingState).meetingState ≠
      MeetingState.ERROR ∧
    (wsOnClose false false recordingState).trackStopCalls = 0 ∧
    (wsOnClose false false recordingState).contextCloseCalls = 0 ∧
    (wsOnClose false false recordingState).workletDisconnectCalls = 0 := by
  refine ⟨rfl, rfl, rfl, rfl, ?_, rfl, rfl, rfl⟩
  decide

lemma participantStep_encode (st : TranscriptState) (e : TierEvent) :
    participantStep st (encodeBroadcast e) = reconcile st e := by
  obtain ⟨tier, text, fin, src⟩ := e
  cases tier <;>
    simp [participantStep, encodeBroadcast, decodeBroadcast, tierTag,
      reconcile]

/-- Claim C5: in collaborative mode, a participant that receives the host's
N tier-broadcast messages in order, applying the same reconciliation rules,
reaches a `TranscriptState` identical to the host's local state after its N
direct tier events. -/
theorem host_participant_convergence (st : TranscriptState)
    (evts : List TierEvent) :
    participantRun st (evts.map encodeBroadcast) = hostRun st evts := by
  induction evts generalizing st with
  | nil => rfl
  | cons e es ih =>
    have hp : participantRun st ((e :: es).map encodeBroadcast) =
        participantRun (participantStep st (encodeBroadcast e))
          (es.map encodeBroadcast) := rfl
    have hh : hostRun st (e :: es) = hostRun (reconcile st e) es := rfl
    rw [hp, hh, participantStep_encode]
    exact ih _


/-!
## Properties of the audio worklet
-/

lemma maxAbs_nonneg (l : List ℚ) : 0 ≤ maxAbs l := by
  induction l with
  | nil => exact le_refl 0
  | cons x t ih =>
    exact le_trans ih (le_max_right _ _)

lemma maxAbs_cons (x : ℚ) (l : List ℚ) :
    maxAbs (x :: l) = max |x| (maxAbs l) := rfl

lemma le_maxAbs_of_mem {x : ℚ} {l : List ℚ} (h : x ∈ l) : |x| ≤ maxAbs l := by
  induction l with
  | nil => cases h
  | cons y t ih =>
    rcases List.mem_cons.mp h with h | h
    · rw [h, maxAbs_cons]
      exact le_max_left _ _
    · rw [maxAbs_cons]
      exact le_trans (ih h) (le_max_right _ _)

lemma procGo_no_emit : ∀ (input buf : List ℚ) (amp : ℚ),
    buf.length + input.length < bufferSize →
    procGo buf amp input = (buf ++ input, []) := by
  intro input
  induction input with
  | nil => intro buf amp _; simp [procGo]
  | cons x rest ih =>
    intro buf amp h
    have hlen : ¬ bufferSize ≤ (buf ++ [x]).length := by
      simp only [List.length_append, List.length_singleton]
      simp only [List.length_cons] at h
      omega
    simp only [procGo, if_neg hlen]
    have := ih (buf ++ [x]) (max amp |x|) (by
      simp only [List.length_append, List.length_singleton]
      simp only [List.length_cons] at h
      omega)
    rw [this]
    simp

lemma procGo_one_emit : ∀ (input buf : List ℚ) (amp : ℚ),
    buf.length < bufferSize →
    bufferSize ≤ buf.length + input.length →
    buf.length + input.length < 2 * bufferSize →
    procGo buf amp input = (input.drop (bufferSize - buf.length),
      [⟨(buf ++ input.take (bufferSize - buf.length)).map pcm16Sample,
        decide (silenceThreshold <
          max amp (maxAbs (input.take (bufferSize - buf.length))))⟩]) := by
  intro input
  induction input with
  | nil =>
    intro buf amp h1 h2 _
    simp only [List.length_nil, Nat.add_zero] at h2
    omega
  | cons x rest ih =>
    intro buf amp h1 h2 h3
    simp only [List.length_cons] at h2 h3
    by_cases hfull : bufferSize ≤ buf.length + 1
    · -- the frame completes on this sample: buf.length + 1 = bufferSize
      have hbl : buf.length + 1 = bufferSize := by omega
      have hrest : rest.length < bufferSize := by omega
      have hcond : bufferSize ≤ (buf ++ [x]).length := by
        simp only [List.length_append, List.length_singleton]
        omega
      simp only [procGo, if_pos hcond]
      rw [procGo_no_emit rest [] 0 (by simpa using hrest)]
      have htake : bufferSize - buf.length = 1 := by omega
      rw [htake]
      have hmax : maxAbs [x] = |x| := by
        simp [maxAbs, max_eq_left (abs_nonneg x)]
      simp [hmax]
    · -- keep accumulating
      have hlt : buf.length + 1 < bufferSize := by omega
      have hcond : ¬ bufferSize ≤ (buf ++ [x]).length := by
        simp only [List.length_append, List.length_singleton]
        omega
      simp only [procGo, if_neg hcond]
      have := ih (buf ++ [x]) (max amp |x|)
        (by simp only [List.length_append, List.length_singleton]; omega)
        (by simp only [List.length_append, List.length_singleton]; omega)
        (by simp only [List.length_append, List.length_singleton]; omega)
      rw [this]
      have hsub : bufferSize - (buf ++ [x]).length =
          bufferSize - buf.length - 1 := by
        simp only [List.length_append, List.length_singleton]
        omega
      have hexp : bufferSize - buf.length = (bufferSize - buf.length - 1) + 1 := by
        omega
      have htk : (x :: rest).take (bufferSize - buf.length) =
          x :: rest.take (bufferSize - buf.length - 1) := by
        rw [hexp, List.take_succ_cons]
        simp
      have hdp : (x :: rest).drop (bufferSize - buf.length) =
          rest.drop (bufferSize - buf.length - 1) := by
        rw [hexp, List.drop_succ_cons]
        simp
      rw [hsub, htk, hdp]
      have happ : (buf ++ [x]) ++ rest.take (bufferSize - buf.length - 1) =
          buf ++ (x :: rest.take (bufferSize - buf.length - 1)) := by
        simp
      rw [happ]
      have hamp : max (max amp |x|)
          (maxAbs (rest.take (bufferSize - buf.length - 1))) =
          max amp (maxAbs (x :: rest.take (bufferSize - buf.length - 1))) := by
        rw [maxAbs_cons, max_assoc]
      rw [hamp]

lemma procGo_len : ∀ (input buf : List ℚ) (amp : ℚ),
    buf.length < bufferSize →
    ((procGo buf amp input).1.length =
        (buf.length + input.length) % bufferSize ∧
     (procGo buf amp input).2.length =
        (buf.length + input.length) / bufferSize ∧
     ∀ f ∈ (procGo buf amp input).2, f.pcm.length = bufferSize) := by
  intro input
  induction input with
  | nil =>
    intro buf amp h
    refine ⟨?_, ?_, ?_⟩
    · simp [procGo, Nat.mod_eq_of_lt h]
    · simp [procGo, Nat.div_eq_of_lt h]
    · intro f hf
      simp [procGo] at hf
  | cons x rest ih =>
    intro buf amp h
    by_cases hfull : bufferSize ≤ buf.length + 1
    · have hbl : buf.length + 1 = bufferSize := by omega
      have hcond : bufferSize ≤ (buf ++ [x]).length := by
        simp only [List.length_append, List.length_singleton]; omega
      simp only [procGo, if_pos hcond]
      obtain ⟨i1, i2, i3⟩ := ih [] 0 (by norm_num [bufferSize])
      simp only [List.length_nil, Nat.zero_add] at i1 i2
      refine ⟨?_, ?_, ?_⟩
      · show (procGo [] 0 rest).1.length = _
        rw [i1]
        simp only [List.length_cons, bufferSize] at hbl ⊢
        omega
      · show (procGo [] 0 rest).2.length + 1 = _
        rw [i2]
        simp only [List.length_cons, bufferSize] at hbl ⊢
        omega
      · intro f hf
        rcases List.mem_cons.mp hf with hf | hf
        · rw [hf]
          show ((buf ++ [x]).map pcm16Sample).length = bufferSize
          simp only [List.length_map, List.length_append,
            List.length_singleton]
          omega
        · exact i3 f hf
    · have hcond : ¬ bufferSize ≤ (buf ++ [x]).length := by
        simp only [List.length_append, List.length_singleton]; omega
      simp only [procGo, if_neg hcond]
      obtain ⟨i1, i2, i3⟩ := ih (buf ++ [x]) (max amp |x|)
        (by simp only [List.length_append, List.length_singleton]; omega)
      have e : (buf ++ [x]).length + rest.length =
          buf.length + (x :: rest).length := by
        simp only [List.length_append, List.length_cons, List.length_nil]
        omega
      rw [e] at i1 i2
      exact ⟨i1, i2, i3⟩

lemma div_aux (a b n : Nat) (hn : 0 < n) :
    (a + b) / n = a / n + (a % n + b) / n := by
  conv_lhs => rw [← Nat.div_add_mod a n]
  rw [Nat.add_assoc, Nat.mul_add_div hn]

lemma mod_aux (a b n : Nat) :
    (a + b) % n = (a % n + b) % n := by
  conv_lhs => rw [← Nat.div_add_mod a n]
  rw [Nat.add_assoc, Nat.mul_add_mod]

lemma processAll_count : ∀ (calls : List (List ℚ)) (buf : List ℚ),
    buf.length < bufferSize →
    ((processAll buf calls).2.length =
        (buf.length + totalSamples calls) / bufferSize ∧
     (processAll buf calls).1.length =
        (buf.length + totalSamples calls) % bufferSize ∧
     ∀ f ∈ (processAll buf calls).2, f.pcm.length = bufferSize) := by
  intro calls
  induction calls with
  | nil =>
    intro buf h
    refine ⟨?_, ?_, ?_⟩
    · simp [processAll, totalSamples, Nat.div_eq_of_lt h]
    · simp [processAll, totalSamples, Nat.mod_eq_of_lt h]
    · intro f hf
      simp [processAll] at hf
  | cons c cs ih =>
    intro buf h
    obtain ⟨p1, p2, p3⟩ := procGo_len c buf 0 h
    have hp1 : (processCall buf c).1.length =
        (buf.length + c.length) % bufferSize := p1
    have hp2 : (processCall buf c).2.length =
        (buf.length + c.length) / bufferSize := p2
    have hlt : (processCall buf c).1.length < bufferSize := by
      rw [hp1]
      exact Nat.mod_lt _ (by norm_num [bufferSize])
    obtain ⟨q1, q2, q3⟩ := ih (processCall buf c).1 hlt
    have hts : totalSamples (c :: cs) = c.length + totalSamples cs := by
      simp [totalSamples]
    refine ⟨?_, ?_, ?_⟩
    · show ((processCall buf c).2 ++
        (processAll (processCall buf c).1 cs).2).length = _
      rw [List.length_append, hp2, q1, hp1, hts,
        ← Nat.add_assoc buf.length c.length (totalSamples cs)]
      exact (div_aux (buf.length + c.length) (totalSamples cs) bufferSize
        (by norm_num [bufferSize])).symm
    · show (processAll (processCall buf c).1 cs).1.length = _
      rw [q2, hp1, hts, ← Nat.add_assoc buf.length c.length (totalSamples cs)]
      exact (mod_aux (buf.length + c.length) (totalSamples cs)
        bufferSize).symm
    · intro f hf
      show f.pcm.length = bufferSize
      rcases List.mem_append.mp hf with hf | hf
      · exact p3 f hf
      · exact q3 f hf

/-- Counterexample to claim C8 as stated: the 1600-sample frame window is
filled with 1599 loud samples (amplitude 1/2) delivered in one `process`
invocation, and completed by a single silent sample in the next invocation.
The emitted frame's `isSpeaking` flag is `false` even though the maximum
absolute amplitude over the frame window is 1/2 > 0.01, because
`maxAmplitude` restarts at 0 on every `process` call. -/
theorem isSpeaking_cross_call_cex :
    ((processCall (processCall [] (List.replicate 1599 (1/2 : ℚ))).1
        [0]).2.map Frame.isSpeaking) = [false] ∧
    silenceThreshold <
      maxAbs ((processCall [] (List.replicate 1599 (1/2 : ℚ))).1 ++ [0]) := by
  have h1 : processCall [] (List.replicate 1599 (1/2 : ℚ)) =
      (List.replicate 1599 (1/2 : ℚ), []) :=
    procGo_no_emit (List.replicate 1599 (1/2 : ℚ)) [] 0
      (by simp only [List.length_nil, List.length_replicate, bufferSize]
          omega)
  rw [h1]
  constructor
  · have h2 := procGo_one_emit [0] (List.replicate 1599 (1/2 : ℚ)) 0
      (by simp only [List.length_replicate, bufferSize]; omega)
      (by simp only [List.length_replicate, List.length_cons,
            List.length_nil, bufferSize]
          omega)
      (by simp only [List.length_replicate, List.length_cons,
            List.length_nil, bufferSize]
          omega)
    have hshow : processCall (List.replicate 1599 (1/2 : ℚ)) [0] =
        procGo (List.replicate 1599 (1/2 : ℚ)) 0 [0] := rfl
    have hsub : bufferSize - (List.replicate 1599 (1/2 : ℚ)).length = 1 := by
      simp only [List.length_replicate, bufferSize]
    rw [hshow, h2, hsub]
    simp only [List.take_succ_cons, List.take_zero, List.drop_succ_cons,
      List.drop_zero, List.map_cons, List.map_nil]
    have hnp : ¬ (silenceThreshold < max 0 (maxAbs [(0 : ℚ)])) := by
      simp only [maxAbs, List.foldr_cons, List.foldr_nil, silenceThreshold]
      norm_num
    simp only [decide_eq_false hnp]
  · have hmem : (1/2 : ℚ) ∈ List.replicate 1599 (1/2 : ℚ) ++ [0] := by
      rw [List.mem_append]
      left
      rw [List.mem_replicate]
      norm_num
    have hle := le_maxAbs_of_mem hmem
    have habs : |(1/2 : ℚ)| = 1/2 := by norm_num
    rw [habs] at hle
    calc silenceThreshold < 1/2 := by norm_num [silenceThreshold]
      _ ≤ _ := hle

/-- Claim C8, amended: the emitted PCM16 value equals the sample clamped to
the interval from -1 to 1 and scaled by the signed 16-bit range (negative
values by 32768, non-negative by 32767); the frame's `isSpeaking` flag,
however, is true exactly when the maximum absolute amplitude over the
samples of the frame that arrived in the `process` invocation that
completed the frame (since that invocation's previous frame emission)
exceeds the 0.01 threshold — samples of the frame delivered in earlier
invocations are not included in the window. -/
theorem pcm16_scaling_and_isSpeaking_window :
    (∀ x : ℚ, pcm16Sample x =
      max (-1) (min 1 x) * (if x < 0 then 32768 else 32767)) ∧
    (∀ buf input : List ℚ, buf.length < bufferSize →
      bufferSize ≤ buf.length + input.length →
      buf.length + input.length < 2 * bufferSize →
      processCall buf input = (input.drop (bufferSize - buf.length),
        [⟨(buf ++ input.take (bufferSize - buf.length)).map pcm16Sample,
          decide (silenceThreshold <
            maxAbs (input.take (bufferSize - buf.length)))⟩])) := by
  constructor
  · intro x
    by_cases h : x < 0
    · have hs : max (-1) (min 1 x) < 0 := by
        rw [max_lt_iff]
        exact ⟨by norm_num, lt_of_le_of_lt (min_le_right _ _) h⟩
      simp only [pcm16Sample]
      rw [if_pos hs, if_pos h]
    · push_neg at h
      have hs : ¬ max (-1) (min 1 x) < 0 := by
        push_neg
        rw [le_max_iff]
        right
        exact le_min (by norm_num) h
      simp only [pcm16Sample]
      rw [if_neg hs, if_neg (not_lt.mpr h)]
  · intro buf input h1 h2 h3
    have hmain := procGo_one_emit input buf 0 h1 h2 h3
    have hm : max (0 : ℚ) (maxAbs (input.take (bufferSize - buf.length))) =
        maxAbs (input.take (bufferSize - buf.length)) :=
      max_eq_right (maxAbs_nonneg _)
    show procGo buf 0 input = _
    rw [hmain]
    simp only [hm]

/-- Witness for the amended C8: a single invocation carrying one whole
frame of silence, where the window is the full frame. -/
theorem pcm16_window_witness :
    processCall [] (List.replicate 1600 (0 : ℚ)) =
      ((List.replicate 1600 (0 : ℚ)).drop
          (bufferSize - ([] : List ℚ).length),
        [⟨(([] : List ℚ) ++ (List.replicate 1600 (0 : ℚ)).take
            (bufferSize - ([] : List ℚ).length)).map pcm16Sample,
          decide (silenceThreshold <
            maxAbs ((List.replicate 1600 (0 : ℚ)).take
              (bufferSize - ([] : List ℚ).length)))⟩]) :=
  pcm16_scaling_and_isSpeaking_window.2 [] (List.replicate 1600 (0 : ℚ))
    (by simp only [List.length_nil, bufferSize]; omega)
    (by simp only [List.length_nil, List.length_replicate, bufferSize]; omega)
    (by simp only [List.length_nil, List.length_replicate, bufferSize]; omega)

/-- Claim C9: the audio framer only ever emits frames of exactly the
configured frame size (1600 samples, hence never smaller), and a capture of
T seconds of input at 16 kHz (16000·T samples in total, however they are
split across `process` invocations) emits exactly
`floor(T / frameDurationSeconds)` frames — within the claim's ±1
tolerance. -/
theorem framer_frame_size_and_count (calls : List (List ℚ)) :
    (∀ f ∈ (processAll [] calls).2, f.pcm.length = bufferSize) ∧
    (processAll [] calls).2.length = totalSamples calls / bufferSize ∧
    (∀ T : ℕ, totalSamples calls = 16000 * T →
      ((processAll [] calls).2.length : ℤ) =
        ⌊(T : ℚ) / frameDurationSeconds⌋) := by
  obtain ⟨q1, q2, q3⟩ := processAll_count calls []
    (by simp only [List.length_nil, bufferSize]; omega)
  simp only [List.length_nil, Nat.zero_add] at q1 q2
  refine ⟨q3, q1, ?_⟩
  intro T hT
  rw [q1, hT]
  have hdiv : 16000 * T / bufferSize = 10 * T := by
    rw [show 16000 * T = bufferSize * (10 * T) by
      simp only [bufferSize]; ring]
    exact Nat.mul_div_cancel_left _ (by norm_num [bufferSize])
  rw [hdiv]
  have hfd : frameDurationSeconds = 1 / 10 := by
    norm_num [frameDurationSeconds, bufferSize]
  rw [hfd]
  have hq : (T : ℚ) / (1 / 10) = ((10 * T : ℕ) : ℚ) := by
    push_cast
    ring
  rw [hq, Int.floor_natCast]

/-- Witness for C9 at a concrete one-second capture. -/
theorem framer_count_witness :
    ((processAll [] [List.replicate 16000 (0 : ℚ)]).2.length : ℤ) =
      ⌊(1 : ℚ) / frameDurationSeconds⌋ := by
  have h := (framer_frame_size_and_count [List.replicate 16000 (0 : ℚ)]).2.2 1
    (by simp only [totalSamples, List.map_cons, List.map_nil,
          List.sum_cons, List.sum_nil, List.length_replicate]
        omega)
  rw [Nat.cast_one] at h
  exact h
